import Mathlib

/-!
Verification development for the cs2-tracker-backend price resolution engine
(src/main.py). Each Python function relevant to the specified behaviour is
shallowly embedded as an executable Lean definition and the specified
properties are settled as theorems.

Modelling conventions:
* Python floats are modelled as exact rationals; IEEE-754 rounding of the
  Python runtime is abstracted away (the properties under study are about
  the symbolic disambiguation / arithmetic structure, far above float
  epsilon).
* Character classes of the regular expressions used by the code
  (digits, word characters, whitespace, alphanumerics) are modelled over
  ASCII; the only pattern that is explicitly ASCII in the source is
  `[^a-zA-Z0-9]`, the others coincide with the Python semantics on all
  inputs exercised here.
* Python `float(...)` string parsing is modelled on the grammar
  `ws* sign? (digits [. digits*]? | . digits) ([eE] sign? digits)? ws*`;
  the `inf`/`nan` spellings and `_` digit grouping are not modelled (they
  make `float` succeed on inputs none of the analysed call sites can
  receive from the behaviours at issue, and their absence only makes the
  modelled parser fail, i.e. degrade to the same `None` defaults).
-/

namespace CS2

/-- ASCII whitespace as matched by Python `str.strip` and the `\s` class
on the inputs considered here. -/
def isWsChar (c : Char) : Bool :=
  c = ' ' || c = '\t' || c = '\n' || c = '\x0d' || c = '\x0b' || c = '\x0c'

/-- ASCII alphanumeric, the class `[a-zA-Z0-9]` from `normalize_name`. -/
def isAsciiAlnum (c : Char) : Bool :=
  ('a' ≤ c && c ≤ 'z') || ('A' ≤ c && c ≤ 'Z') || ('0' ≤ c && c ≤ '9')

/-- ASCII decimal digit, the class `\d`. -/
def isDigitChar (c : Char) : Bool :=
  '0' ≤ c && c ≤ '9'

/-- Word character for the regex `\b` boundary: `[a-zA-Z0-9_]`. -/
def isWordChar (c : Char) : Bool :=
  isAsciiAlnum c || c = '_'

/-- ASCII lower-casing of one character, as `str.lower` acts on the
ASCII-only strings produced by the normalization pipeline. -/
def lowerChar (c : Char) : Char :=
  if 'A' ≤ c && c ≤ 'Z' then Char.ofNat (c.toNat + 32) else c

/-- Trim leading and trailing whitespace, Python `str.strip()`. -/
def trimChars (l : List Char) : List Char :=
  ((l.dropWhile isWsChar).reverse.dropWhile isWsChar).reverse

/-- Numeric value of a list of ASCII digits (most significant first). -/
def digitsToNat (l : List Char) : ℕ :=
  l.foldl (fun a c => a * 10 + (c.toNat - 48)) 0

/-- Optional leading sign of a numeric literal; returns the sign and the
remaining characters. -/
def takeSign : List Char → ℤ × List Char
  | '+' :: r => (1, r)
  | '-' :: r => (-1, r)
  | l => (1, l)

/-- Value of a parsed decimal literal: sign, integer digits, fraction
digits and decimal exponent.  Built with `mkRat` on integers so that the
kernel can evaluate it on concrete inputs. -/
def decimalVal (sgn : ℤ) (ip fp : List Char) (ex : ℤ) : ℚ :=
  let m : ℤ := sgn * (digitsToNat (ip ++ fp) : ℤ)
  let e : ℤ := ex - (fp.length : ℤ)
  if 0 ≤ e then mkRat (m * ((10 : ℤ) ^ e.toNat)) 1
  else mkRat m ((10 : ℕ) ^ (-e).toNat)

/-- Optional exponent part `([eE] sign? digits)?` at the end of a float
literal; `none` means the whole literal is rejected. -/
def parseExpPart (sgn : ℤ) (ip fp : List Char) : List Char → Option ℚ
  | [] => some (decimalVal sgn ip fp 0)
  | e :: r =>
    if e = 'e' || e = 'E' then
      let (esgn, r1) := takeSign r
      let ed := r1.takeWhile isDigitChar
      let r2 := r1.dropWhile isDigitChar
      if ed = [] || r2 ≠ [] then none
      else some (decimalVal sgn ip fp (esgn * (digitsToNat ed : ℤ)))
    else none

/-- Core of Python `float(...)` on an already stripped character list:
`sign? (digits [. digits*]? | . digits) ([eE] sign? digits)?`. -/
def pyFloatCore (l : List Char) : Option ℚ :=
  let (sgn, l1) := takeSign l
  let ip := l1.takeWhile isDigitChar
  let l2 := l1.dropWhile isDigitChar
  match l2 with
  | '.' :: l3 =>
    let fp := l3.takeWhile isDigitChar
    let l4 := l3.dropWhile isDigitChar
    if ip = [] && fp = [] then none else parseExpPart sgn ip fp l4
  | _ => if ip = [] then none else parseExpPart sgn ip [] l2

/-- Python `float(s)` on a string: surrounding whitespace is tolerated. -/
def pyFloat (s : String) : Option ℚ :=
  pyFloatCore (trimChars s.data)

/-- Embedding of `parse_float_safe` (src/main.py:52-56):
`float(str(v).replace(",", "").strip())`, `None` on failure. -/
def parse_float_safe (s : String) : Option ℚ :=
  pyFloatCore (trimChars (s.data.filter (fun c => c ≠ ',')))

/-- Truncation toward zero, Python `int(...)` applied to a float. -/
def ratTrunc (q : ℚ) : ℤ :=
  if q < 0 then ⌈q⌉ else ⌊q⌋

/-- Embedding of `parse_quantity` (src/main.py:58-63):
`max(1, int(float(str(v))))`, and 1 when anything fails. -/
def parse_quantity (s : String) : ℕ :=
  match pyFloat s with
  | none => 1
  | some q => (max 1 (ratTrunc q)).toNat

/-- Character class `[\d\.,]` of the regex in
`extract_number_from_price_str`. -/
def isNumChar (c : Char) : Bool :=
  isDigitChar c || c = '.' || c = ','

/-- Leftmost maximal run matching `[\d\.,]+`, i.e. what
`re.search(r"[\d\.,]+", s)` finds; `none` when the pattern does not
occur. -/
def firstNumRun : List Char → Option (List Char)
  | [] => none
  | c :: cs =>
    if isNumChar c then some ((c :: cs).takeWhile isNumChar)
    else firstNumRun cs

/-- Length of `num.split(",")[-1]`: the characters after the last comma. -/
def lastCommaGroupLen (l : List Char) : ℕ :=
  (l.reverse.takeWhile (fun c => c ≠ ',')).length

/-- Replace a comma by a period, one character of
`num.replace(",", ".")`. -/
def commaToDot (c : Char) : Char :=
  if c = ',' then '.' else c

/-- Separator disambiguation of `extract_number_from_price_str`
(src/main.py:72-78): with both separators strip commas; with commas only,
strip them when the last comma group has exactly 3 digits, otherwise turn
the commas into periods. -/
def transformNum (num : List Char) : List Char :=
  if 0 < num.count ',' && 0 < num.count '.' then
    num.filter (fun c => c ≠ ',')
  else if 0 < num.count ',' then
    if lastCommaGroupLen num = 3 then num.filter (fun c => c ≠ ',')
    else num.map commaToDot
  else num

/-- Embedding of `extract_number_from_price_str` (src/main.py:65-82). -/
def extract_number_from_price_str (s : String) : Option ℚ :=
  if s.data = [] then none
  else
    match firstNumRun s.data with
    | none => none
    | some num => pyFloatCore (trimChars (transformNum num))

/-- Case-insensitive literal prefix match: strips the pattern (given in
lower case) from the character list, `none` when it does not start
there. -/
def matchCI : List Char → List Char → Option (List Char)
  | [], l => some l
  | _ :: _, [] => none
  | p :: ps, c :: cs => if lowerChar c = p then matchCI ps cs else none

/-- Word-boundary test on the character preceding the scan position
(`none` at the start of the string). -/
def boundaryBefore : Option Char → Bool
  | none => true
  | some c => !isWordChar c

/-- Word-boundary test after a match: end of string or a non-word
character. -/
def boundaryAfter : List Char → Bool
  | [] => true
  | c :: _ => !isWordChar c

/-- Zero-width alternative of the optional `[-\s]?` in the StatTrak
regex: match `trak` and a word boundary right after `stat`. -/
def statTailNoSep (r1 : List Char) : Option (List Char) :=
  match matchCI ['t', 'r', 'a', 'k'] r1 with
  | some r3 => if boundaryAfter r3 then some r3 else none
  | none => none

/-- Match of the tail of `\bstat[-\s]?trak\b` (the `\b` before the match
is checked by the scanner): case-insensitive `stat`, at most one hyphen
or whitespace character, `trak`, then a word boundary.  Returns the
characters after the match. -/
def statTail (l : List Char) : Option (List Char) :=
  match matchCI ['s', 't', 'a', 't'] l with
  | none => none
  | some r1 =>
    match r1 with
    | c :: r2 =>
      if c = '-' || isWsChar c then
        match matchCI ['t', 'r', 'a', 'k'] r2 with
        | some r3 => if boundaryAfter r3 then some r3 else statTailNoSep r1
        | none => statTailNoSep r1
      else statTailNoSep r1
    | [] => none

/-- Match of the tail of `\bfield\s*tested\b`: case-insensitive `field`,
any run of whitespace, `tested`, then a word boundary. -/
def fieldTail (l : List Char) : Option (List Char) :=
  match matchCI ['f', 'i', 'e', 'l', 'd'] l with
  | none => none
  | some r1 =>
    match matchCI ['t', 'e', 's', 't', 'e', 'd'] (r1.dropWhile isWsChar) with
    | some r3 => if boundaryAfter r3 then some r3 else none
    | none => none

/-- Leftmost non-overlapping substitution of `\bstat[-\s]?trak\b` by
`StatTrak` (case-insensitive), the first `re.sub` of `normalize_name`.
The fuel argument dominates the number of scan steps; `'k'` is the last
character of any match, which is what the following boundary check needs
from the original text. -/
def subStatAux : ℕ → Option Char → List Char → List Char
  | 0, _, l => l
  | _ + 1, _, [] => []
  | fuel + 1, prev, c :: cs =>
    if boundaryBefore prev then
      match statTail (c :: cs) with
      | some rest => "StatTrak".data ++ subStatAux fuel (some 'k') rest
      | none => c :: subStatAux fuel (some c) cs
    else c :: subStatAux fuel (some c) cs

/-- Leftmost non-overlapping substitution of `\bfield\s*tested\b` by
`Field-Tested` (case-insensitive), the second `re.sub` of
`normalize_name`. -/
def subFieldAux : ℕ → Option Char → List Char → List Char
  | 0, _, l => l
  | _ + 1, _, [] => []
  | fuel + 1, prev, c :: cs =>
    if boundaryBefore prev then
      match fieldTail (c :: cs) with
      | some rest => "Field-Tested".data ++ subFieldAux fuel (some 'd') rest
      | none => c :: subFieldAux fuel (some c) cs
    else c :: subFieldAux fuel (some c) cs

/-- Substitution of every maximal run matching `[^a-zA-Z0-9]+` by a
single space. -/
def collapseAux : ℕ → List Char → List Char
  | 0, l => l
  | _ + 1, [] => []
  | fuel + 1, c :: cs =>
    if isAsciiAlnum c then c :: collapseAux fuel cs
    else ' ' :: collapseAux fuel (cs.dropWhile (fun d => !isAsciiAlnum d))

/-- Substitution of every maximal whitespace run by a single space
(`re.sub(r"\s+", " ", t)`). -/
def squeezeAux : ℕ → List Char → List Char
  | 0, l => l
  | _ + 1, [] => []
  | fuel + 1, c :: cs =>
    if isWsChar c then ' ' :: squeezeAux fuel (cs.dropWhile isWsChar)
    else c :: squeezeAux fuel cs

/-- Embedding of `normalize_name` (src/main.py:84-98): strip, unify the
StatTrak and Field-Tested variants, blank out the `★`/`™`/`|`
decorations, collapse non-alphanumeric runs to single spaces, squeeze
whitespace, strip again and lower-case. -/
def normalize_name (s : String) : String :=
  let t0 := trimChars s.data
  let t1 := subStatAux (t0.length + 1) none t0
  let t2 := subFieldAux (t1.length + 1) none t1
  let t3 := t2.map (fun c => if c = '★' || c = '™' || c = '|' then ' ' else c)
  let t4 := collapseAux (t3.length + 1) t3
  let t5 := squeezeAux (t4.length + 1) t4
  String.mk ((trimChars t5).map lowerChar)

/-! ### Kernel-computable rational operations

The Python arithmetic on prices is modelled over `ℚ`.  The standard
`Rat` field operations are not reducible by the kernel, so the model
uses explicit `mkRat` constructions; the bridge lemmas below show they
agree with the field operations. -/

/-- Rational subtraction via `mkRat`. -/
def qSub (a b : ℚ) : ℚ :=
  mkRat (a.num * (b.den : ℤ) - b.num * (a.den : ℤ)) (a.den * b.den)

/-- Multiplication of a rational by a natural number via `mkRat`. -/
def qMulNat (a : ℚ) (n : ℕ) : ℚ :=
  mkRat (a.num * (n : ℤ)) a.den

/-- Multiplication by 100 via `mkRat`. -/
def qMul100 (a : ℚ) : ℚ :=
  mkRat (a.num * 100) a.den

/-- Rational division via `mkRat`; division by zero yields 0, the same
convention as the field division on `ℚ`. -/
def qDiv (a b : ℚ) : ℚ :=
  if 0 ≤ b.num then mkRat (a.num * (b.den : ℤ)) (a.den * b.num.toNat)
  else mkRat (-(a.num * (b.den : ℤ))) (a.den * (-b.num).toNat)

/-- Nearest integer with ties to even, the rounding mode of Python
`round`. -/
def roundHalfEven (x : ℚ) : ℤ :=
  let f : ℤ := ⌊x⌋
  let r2 : ℤ := 2 * (x.num - f * (x.den : ℤ))
  if r2 < (x.den : ℤ) then f
  else if (x.den : ℤ) < r2 then f + 1
  else if f % 2 = 0 then f else f + 1

/-- Python `round(x, 2)`: round half to even at two decimal places. -/
def round2 (x : ℚ) : ℚ :=
  mkRat (roundHalfEven (qMul100 x)) 100

/-! ### Data model -/

/-- An inventory row as produced by `read_items_from_sheet`
(src/main.py:162-167). -/
structure Item where
  item_name : String
  source : String
  paid_price : Option ℚ
  quantity : ℕ
deriving DecidableEq

/-- The four recognized fields of a raw spreadsheet row after the header
normalization of src/main.py:147-152; `none` is an absent column and the
values carry the cell text already stripped (line 152). -/
structure SheetRow where
  item_name : Option String
  source : Option String
  paid_price : Option String
  quantity : Option String
deriving DecidableEq

/-- Python falsy-default `x or d` for an optional string field: absent
and empty both fall back to the default. -/
def orDefault (o : Option String) (d : String) : String :=
  match o with
  | none => d
  | some s => if s = "" then d else s

/-- Row admission of `read_items_from_sheet` (src/main.py:154-167): a
row without (or with an empty) `item_name` is dropped; `source` is
`(norm.get("source") or "steam").strip().lower()`; `paid_price` is
`parse_float_safe(norm.get("paid_price") or 0)`; `quantity` is
`parse_quantity(norm.get("quantity") or 1)`. -/
def read_items_row (r : SheetRow) : Option Item :=
  let source := String.mk ((trimChars (orDefault r.source "steam").data).map lowerChar)
  let paid_price := parse_float_safe (orDefault r.paid_price "0")
  let quantity := parse_quantity (orDefault r.quantity "1")
  match r.item_name with
  | none => none
  | some nm => if nm = "" then none else some ⟨nm, source, paid_price, quantity⟩

/-- The list of usable rows of the sheet (src/main.py:145-167). -/
def read_items_from_sheet (rows : List SheetRow) : List Item :=
  rows.filterMap read_items_row

/-! ### Per-item price resolution -/

/-- The dict stored in the module cache under a `price::` key.  Because
`cache_set` stores a reference and src/main.py:288-289 mutate that same
dict afterwards, the stored record also ends up carrying `paid_price`
and `quantity` keys; they are modelled as optional fields (`none` =
key absent). -/
structure CachedQuote where
  item_name : String
  source : String
  current_price : Option ℚ
  timestamp_utc : String
  paid_price : Option (Option ℚ)
  quantity : Option ℕ
deriving DecidableEq

/-- The dict returned by `fetch_price_for_item`: quote fields plus the
requesting item's own `paid_price` and `quantity`. -/
structure RawResult where
  item_name : String
  source : String
  current_price : Option ℚ
  timestamp_utc : String
  paid_price : Option ℚ
  quantity : ℕ
deriving DecidableEq

/-- Observable outcome of one `fetch_price_for_item` call: the returned
dict, the cache write it performed (key and record, `none` on a cache
hit), and how many times each upstream fetcher ran. -/
structure ResolveOut where
  result : RawResult
  stored : Option (String × CachedQuote)
  steam_calls : ℕ
  skinport_calls : ℕ
deriving DecidableEq

/-- The cache key `f"price::{source}::{name}"` of src/main.py:261. -/
def price_cache_key (it : Item) : String :=
  "price::" ++ it.source ++ "::" ++ it.item_name

/-- Embedding of `fetch_price_for_item` (src/main.py:257-290).  The
upstream fetchers are abstracted by their outcomes `steam_quote` and
`skinport_quote` (each `none` on no-quote/soft failure), `now` is the
timestamp and `cache` the current state of the module cache restricted
to unexpired entries. -/
def fetch_price_for_item (cache : String → Option CachedQuote)
    (steam_quote skinport_quote : Option ℚ) (now : String) (it : Item) :
    ResolveOut :=
  let key := price_cache_key it
  match cache key with
  | some q =>
    { result := { item_name := q.item_name, source := q.source,
                  current_price := q.current_price,
                  timestamp_utc := q.timestamp_utc,
                  paid_price := it.paid_price, quantity := it.quantity },
      stored := none, steam_calls := 0, skinport_calls := 0 }
  | none =>
    let triple :=
      if it.source = "skinport" then
        match skinport_quote with
        | some p => ((some p : Option ℚ), 0, 1)
        | none => (steam_quote, 1, 1)
      else
        match steam_quote with
        | some p => ((some p : Option ℚ), 1, 0)
        | none => (skinport_quote, 1, 1)
    let price := triple.1
    let rec0 : CachedQuote :=
      { item_name := it.item_name, source := it.source,
        current_price := price, timestamp_utc := now,
        paid_price := some it.paid_price, quantity := some it.quantity }
    { result := { item_name := it.item_name, source := it.source,
                  current_price := price, timestamp_utc := now,
                  paid_price := it.paid_price, quantity := it.quantity },
      stored := some (key, rec0),
      steam_calls := triple.2.1, skinport_calls := triple.2.2 }

/-! ### Financial metrics and the batch endpoint -/

/-- One output record of `/prices`. -/
structure PricedRow where
  item_name : String
  source : String
  paid_price : ℚ
  current_price : Option ℚ
  quantity : ℕ
  profit_per_item : Option ℚ
  profit_total : Option ℚ
  percent_change : Option ℚ
  timestamp_utc : String
deriving DecidableEq

/-- Embedding of the per-record metric computation of `get_prices`
(src/main.py:311-335): `paid = r.get("paid_price") or 0.0`,
`qty = int(r.get("quantity") or 1)`, and when a current price is present
`profit_per = round(current - paid, 2)`,
`total = round(profit_per * qty, 2)`,
`pct = round(profit_per / paid * 100, 2) if paid != 0 else None`. -/
def get_prices_row (r : RawResult) : PricedRow :=
  let paid : ℚ := r.paid_price.getD 0
  let qty : ℕ := if r.quantity = 0 then 1 else r.quantity
  match r.current_price with
  | none =>
    { item_name := r.item_name, source := r.source, paid_price := paid,
      current_price := none, quantity := qty, profit_per_item := none,
      profit_total := none, percent_change := none,
      timestamp_utc := r.timestamp_utc }
  | some c =>
    let pp := round2 (qSub c paid)
    { item_name := r.item_name, source := r.source, paid_price := paid,
      current_price := some (round2 c), quantity := qty,
      profit_per_item := some pp,
      profit_total := some (round2 (qMulNat pp qty)),
      percent_change :=
        if paid = 0 then none else some (round2 (qMul100 (qDiv pp paid))),
      timestamp_utc := r.timestamp_utc }

/-- Position-indexed resolution outcomes: `asyncio.gather` returns the
i-th task's result in position i, and the i-th task prices the i-th
item (src/main.py:307-308). -/
def gatherMap (resolve : ℕ → Item → RawResult) : ℕ → List Item → List RawResult
  | _, [] => []
  | i, it :: rest => resolve i it :: gatherMap resolve (i + 1) rest

/-- Embedding of the `/prices` batch pipeline (src/main.py:299-336)
after inventory reading: resolve every row (concurrently, results in
task order) and compute the metrics per record. -/
def get_prices (items : List Item) (resolve : ℕ → Item → RawResult) :
    List PricedRow :=
  (gatherMap resolve 0 items).map get_prices_row

/-! ### Catalog fetch: retry loop -/

/-- Observable outcome of one attempt of the catalog fetch
(src/main.py:210-223): a 200 response with a JSON list, a 200 response
whose JSON is not a list, a non-200 HTTP status, or a raised exception
(transport error or undecodable body). -/
inductive Outcome (α : Type) where
  | ok (data : List α)
  | okNonList
  | httpStatus (code : ℕ)
  | exc
deriving DecidableEq

/-- Result of a `fetch_skinport_catalog` call: the returned list, the
cache state it leaves behind, the number of attempts performed, and the
backoff multipliers slept (the code sleeps `0.8 * (attempt + 1)`
seconds, recorded here as `attempt + 1`). -/
structure CatResult (α : Type) where
  result : List α
  cached : Option (List α)
  attempts : ℕ
  backoffs : List ℕ
deriving DecidableEq

/-- Whether an attempt outcome makes the loop sleep and retry
(src/main.py:218-223): a 5xx status or an exception. -/
def retriable {α : Type} : Outcome α → Bool
  | Outcome.httpStatus c => 500 ≤ c && c < 600
  | Outcome.exc => true
  | _ => false

/-- The `for attempt in range(3)` loop of `fetch_skinport_catalog`
(src/main.py:210-224): `n` is the remaining attempts, `i` the index of
the next attempt, `f` the outcome of each attempt. -/
def catLoop {α : Type} (f : ℕ → Outcome α) : ℕ → ℕ → CatResult α
  | 0, _ => { result := [], cached := none, attempts := 0, backoffs := [] }
  | n + 1, i =>
    match f i with
    | Outcome.ok l => { result := l, cached := some l, attempts := 1, backoffs := [] }
    | Outcome.okNonList => { result := [], cached := none, attempts := 1, backoffs := [] }
    | Outcome.httpStatus c =>
      if 500 ≤ c && c < 600 then
        let r := catLoop f n (i + 1)
        { result := r.result, cached := r.cached,
          attempts := r.attempts + 1, backoffs := (i + 1) :: r.backoffs }
      else { result := [], cached := none, attempts := 1, backoffs := [] }
    | Outcome.exc =>
      let r := catLoop f n (i + 1)
      { result := r.result, cached := r.cached,
        attempts := r.attempts + 1, backoffs := (i + 1) :: r.backoffs }

/-- Embedding of `fetch_skinport_catalog` (src/main.py:202-224):
`cached` is the unexpired cache entry (if any), in which case it is
returned without contacting upstream; otherwise up to three attempts
run. -/
def fetch_skinport_catalog {α : Type} (cached : Option (List α))
    (f : ℕ → Outcome α) : CatResult α :=
  match cached with
  | some c => { result := c, cached := some c, attempts := 0, backoffs := [] }
  | none => catLoop f 3 0

/-! ### Catalog fetch: interleaving model

`fetch_skinport_catalog` runs inside `asyncio` coroutines.  From the
function entry to the first `await client.get` (src/main.py:203-212)
the coroutine runs without suspension: it reads the cache and, on a
miss, issues the upstream request.  The resumption after the response
(status check, `cache_set`, return; src/main.py:213-217) is the second
atomic section.  The model below counts anonymous concurrent callers in
each phase and tracks the shared cache and the number of upstream
fetches issued; it covers the claim's scenario of a fetch that succeeds
with a 200 list response. -/

/-- Scheduler event: a caller enters the function (atomic up to issuing
the fetch), or an in-flight response is delivered (atomic status check,
cache write and return). -/
inductive CatEv where
  | start
  | complete
deriving DecidableEq

/-- Shared state of the catalog cache with `idle` callers not yet
entered, `inflight` callers awaiting their own upstream response, and
the list of values returned to finished callers. -/
structure CatSt (α : Type) where
  cache : Option (List α)
  fetches : ℕ
  idle : ℕ
  inflight : ℕ
  returns : List (List α)
deriving DecidableEq

/-- One scheduler step: `resp` is the (successful) upstream response
payload. -/
def catStep {α : Type} (resp : List α) (s : CatSt α) : CatEv → CatSt α
  | CatEv.start =>
    if s.idle = 0 then s
    else
      match s.cache with
      | some c => { s with idle := s.idle - 1, returns := c :: s.returns }
      | none =>
        { s with idle := s.idle - 1, inflight := s.inflight + 1,
                 fetches := s.fetches + 1 }
  | CatEv.complete =>
    if s.inflight = 0 then s
    else
      { s with inflight := s.inflight - 1, cache := some resp,
               returns := resp :: s.returns }

/-- Run a schedule of events against the shared cache state. -/
def runCat {α : Type} (resp : List α) (s : CatSt α) (sched : List CatEv) :
    CatSt α :=
  sched.foldl (catStep resp) s

/-- Initial state: empty cache, no fetches yet, `n` concurrent callers
about to resolve against it. -/
def initCat (α : Type) (n : ℕ) : CatSt α :=
  { cache := none, fetches := 0, idle := n, inflight := 0, returns := [] }

/-! ### Bridge lemmas for the kernel-computable rational operations -/

/-- The `mkRat` subtraction agrees with the field subtraction on `ℚ`. -/
lemma qSub_eq (a b : ℚ) : qSub a b = a - b := by
  rw [qSub, Rat.mkRat_eq_div]
  have ha : ((a.den : ℚ)) ≠ 0 := Nat.cast_ne_zero.mpr a.den_nz
  have hb : ((b.den : ℚ)) ≠ 0 := Nat.cast_ne_zero.mpr b.den_nz
  conv_rhs => rw [← Rat.num_div_den a, ← Rat.num_div_den b]
  rw [div_sub_div _ _ ha hb]
  push_cast
  ring_nf

/-- The `mkRat` scaling by a natural agrees with multiplication. -/
lemma qMulNat_eq (a : ℚ) (n : ℕ) : qMulNat a n = a * n := by
  rw [qMulNat, Rat.mkRat_eq_div]
  have ha : ((a.den : ℚ)) ≠ 0 := Nat.cast_ne_zero.mpr a.den_nz
  conv_rhs => rw [← Rat.num_div_den a]
  push_cast
  rw [div_mul_eq_mul_div]

/-- The `mkRat` scaling by 100 agrees with multiplication by 100. -/
lemma qMul100_eq (a : ℚ) : qMul100 a = a * 100 := by
  rw [qMul100, Rat.mkRat_eq_div]
  have ha : ((a.den : ℚ)) ≠ 0 := Nat.cast_ne_zero.mpr a.den_nz
  conv_rhs => rw [← Rat.num_div_den a]
  push_cast
  rw [div_mul_eq_mul_div]

/-- The `mkRat` division agrees with the field division on `ℚ` for a
nonzero divisor. -/
lemma qDiv_eq (a b : ℚ) (hb : b ≠ 0) : qDiv a b = a / b := by
  have hbn : b.num ≠ 0 := Rat.num_ne_zero.mpr hb
  have ha : ((a.den : ℚ)) ≠ 0 := Nat.cast_ne_zero.mpr a.den_nz
  have hbd : ((b.den : ℚ)) ≠ 0 := Nat.cast_ne_zero.mpr b.den_nz
  have hbq : ((b.num : ℚ)) ≠ 0 := Int.cast_ne_zero.mpr hbn
  rw [qDiv]
  by_cases hpos : 0 ≤ b.num
  · rw [if_pos hpos, Rat.mkRat_eq_div]
    have hnn : ((b.num.toNat : ℚ)) = (b.num : ℚ) := by
      exact_mod_cast Int.toNat_of_nonneg hpos
    push_cast
    rw [hnn]
    conv_rhs => rw [← Rat.num_div_den a, ← Rat.num_div_den b]
    rw [div_div_div_comm]
    field_simp
    exact Or.inl (mul_comm _ _)
  · rw [if_neg hpos, Rat.mkRat_eq_div]
    have hnn : (((-b.num).toNat : ℚ)) = -(b.num : ℚ) := by
      have h0 : ((-b.num).toNat : ℤ) = -b.num := Int.toNat_of_nonneg (by omega)
      exact_mod_cast h0
    push_cast
    rw [hnn]
    conv_rhs => rw [← Rat.num_div_den a, ← Rat.num_div_den b]
    rw [div_div_div_comm]
    field_simp
    exact Or.inl (mul_comm _ _)

/-! ### Claim C7: name normalization -/

/-- Counterexample to claim C7: normalization is not idempotent.
`normalize_name "stat.trak"` is `"stat trak"` (the StatTrak regex does
not match across the period), but normalizing that output again
collapses the now space-separated `"stat trak"` into `"stattrak"`. -/
theorem normalize_not_idempotent :
    normalize_name (normalize_name "stat.trak") ≠ normalize_name "stat.trak" := by
  decide

/-- Claim C7 (amended): normalization is deterministic (a pure function
of its input) and case/decoration-insensitive on the stated example —
`normalize_name "★ AK-47 | Redline (Field-Tested)"` equals
`normalize_name "ak-47 redline field tested"` — but it is not idempotent
for every string. -/
theorem normalize_example_insensitive :
    normalize_name "★ AK-47 | Redline (Field-Tested)" =
      normalize_name "ak-47 redline field tested" ∧
    ¬ (∀ x : String, normalize_name (normalize_name x) = normalize_name x) := by
  constructor
  · decide
  · intro h
    have hx := h "stat.trak"
    have hne : normalize_name (normalize_name "stat.trak") ≠
        normalize_name "stat.trak" := by decide
    exact hne hx

/-! ### Claim C2: price-string parsing -/

/-- Counterexample to claim C2: on `"1.234,56"` both separators are
present, so the code strips the comma and obtains `float("1.23456")`,
i.e. 1.23456 — not the 1234.56 the claim asserts. -/
theorem price_parse_mixed_separators_value :
    extract_number_from_price_str "1.234,56" = some (mkRat 123456 100000) ∧
    (mkRat 123456 100000 : ℚ) ≠ mkRat 123456 100 := by
  constructor
  · decide
  · decide

/-- Claim C2 (amended): the parser extracts the first run of digits,
commas and periods; with both separators present every comma is
stripped (so `"1,234.56"` parses to 1234.56 but `"1.234,56"` parses to
1.23456); with commas only, commas are stripped when the final
comma-delimited group has exactly 3 digits (`"1,234"` gives 1234) and
otherwise become the decimal point (`"0,75"` gives 0.75); without a
numeric substring the result is `none`. -/
theorem price_parse_spec :
    (∀ s : String, firstNumRun s.data = none →
      extract_number_from_price_str s = none) ∧
    (∀ (s : String) (run : List Char), firstNumRun s.data = some run →
      0 < run.count ',' → 0 < run.count '.' →
      extract_number_from_price_str s =
        pyFloatCore (trimChars (run.filter (fun c => c ≠ ',')))) ∧
    (∀ (s : String) (run : List Char), firstNumRun s.data = some run →
      0 < run.count ',' → run.count '.' = 0 →
      extract_number_from_price_str s =
        (if lastCommaGroupLen run = 3 then
          pyFloatCore (trimChars (run.filter (fun c => c ≠ ',')))
        else pyFloatCore (trimChars (run.map commaToDot)))) ∧
    (∀ (s : String) (run : List Char), firstNumRun s.data = some run →
      run.count ',' = 0 →
      extract_number_from_price_str s = pyFloatCore (trimChars run)) ∧
    extract_number_from_price_str "1,234.56" = some (mkRat 123456 100) ∧
    extract_number_from_price_str "0,75" = some (mkRat 75 100) ∧
    extract_number_from_price_str "1,234" = some 1234 ∧
    extract_number_from_price_str "1.234,56" = some (mkRat 123456 100000) := by
  have hne : ∀ (s : String) (run : List Char),
      firstNumRun s.data = some run → s.data ≠ [] := by
    intro s run h h0
    rw [h0] at h
    exact Option.noConfusion h
  refine ⟨?_, ?_, ?_, ?_, by decide, by decide, by decide, by decide⟩
  · intro s h
    by_cases he : s.data = []
    · simp [extract_number_from_price_str, he]
    · simp [extract_number_from_price_str, he, h]
  · intro s run h hc hd
    simp [extract_number_from_price_str, hne s run h, h, transformNum, hc, hd]
  · intro s run h hc hd
    by_cases h3 : lastCommaGroupLen run = 3
    · simp [extract_number_from_price_str, hne s run h, h, transformNum, hc, hd, h3]
    · simp [extract_number_from_price_str, hne s run h, h, transformNum, hc, hd, h3]
  · intro s run h hc
    simp [extract_number_from_price_str, hne s run h, h, transformNum, hc]

/-- Witness for `price_parse_spec`: its branch clauses applied at
concrete inputs. -/
theorem price_parse_spec_witness :
    extract_number_from_price_str "abc" = none ∧
    extract_number_from_price_str "$1,2.3" =
      pyFloatCore (trimChars (['1', ',', '2', '.', '3'].filter (fun c => c ≠ ','))) := by
  constructor
  · exact price_parse_spec.1 "abc" (by decide)
  · exact price_parse_spec.2.1 "$1,2.3" ['1', ',', '2', '.', '3']
      (by decide) (by decide) (by decide)

/-! ### Claim C6: what the per-item quote cache stores -/

/-- Claim C6: evaluation of the resolver at a first, cache-missing
resolution.  `cache_set` (src/main.py:287) stores a reference to the
result dict and lines 288-289 then mutate that same dict, so the record
sitting in the cache does carry the caller's `paid_price` (10) and
`quantity` (2) — contradicting the claim that only the market quote is
cached.  (On a later hit the copy is re-stamped, masking the slip.) -/
theorem quote_cache_stores_caller_fields :
    (fetch_price_for_item (fun _ => none) (some (mkRat 125 10)) none "t0"
        ⟨"AK-47 Redline (Field-Tested)", "steam", some (mkRat 10 1), 2⟩).stored =
      some ("price::steam::AK-47 Redline (Field-Tested)",
        ⟨"AK-47 Redline (Field-Tested)", "steam", some (mkRat 125 10), "t0",
          some (some (mkRat 10 1)), some 2⟩) := by
  decide

/-! ### Claim C3: the quote-cache key and what is cached -/

/-- Counterexample to claim C3: resolving item `"AK-47 ★"` with
configured source `"steam"` when steam yields no quote and skinport
yields one.  The write goes to key `"price::steam::AK-47 ★"` — built
from the configured source and the raw name — which differs from the
claimed key for either reading of the source actually tried
(`"steam"` or the fallback `"skinport"`) with the normalized name. -/
theorem quote_cache_key_raw_name :
    (fetch_price_for_item (fun _ => none) none (some (mkRat 5 1)) "t0"
        ⟨"AK-47 ★", "steam", some (mkRat 10 1), 1⟩).stored.map Prod.fst =
      some "price::steam::AK-47 ★" ∧
    "price::steam::AK-47 ★" ≠ "price::steam::" ++ normalize_name "AK-47 ★" ∧
    "price::steam::AK-47 ★" ≠ "price::skinport::" ++ normalize_name "AK-47 ★" := by
  refine ⟨by decide, by decide, by decide⟩

/-- Claim C3 (amended): on a cache miss the resolver stores the quote it
obtained — including a `None`-valued one — under the key
`"price::" ++ source ++ "::" ++ name` built from the item's configured
source and its raw (non-normalized) name, and returns that same
quote. -/
theorem quote_cache_stores_on_miss (cache : String → Option CachedQuote)
    (sq kq : Option ℚ) (now : String) (it : Item)
    (h : cache (price_cache_key it) = none) :
    ∃ rec : CachedQuote,
      (fetch_price_for_item cache sq kq now it).stored =
        some (price_cache_key it, rec) ∧
      rec.current_price =
        (fetch_price_for_item cache sq kq now it).result.current_price ∧
      rec.item_name = it.item_name ∧
      rec.source = it.source ∧
      price_cache_key it = "price::" ++ it.source ++ "::" ++ it.item_name := by
  refine ⟨⟨it.item_name, it.source,
    (fetch_price_for_item cache sq kq now it).result.current_price, now,
    some it.paid_price, some it.quantity⟩, ?_, rfl, rfl, rfl, rfl⟩
  simp [fetch_price_for_item, h]

/-- Witness for `quote_cache_stores_on_miss` at a concrete item whose
lookup both misses and produces no quote. -/
theorem quote_cache_stores_on_miss_witness :
    ∃ rec : CachedQuote,
      (fetch_price_for_item (fun _ => none) none none "t"
          ⟨"n", "steam", none, 1⟩).stored =
        some (price_cache_key ⟨"n", "steam", none, 1⟩, rec) ∧
      rec.current_price =
        (fetch_price_for_item (fun _ => none) none none "t"
          ⟨"n", "steam", none, 1⟩).result.current_price ∧
      rec.item_name = "n" ∧
      rec.source = "steam" ∧
      price_cache_key ⟨"n", "steam", none, 1⟩ = "price::" ++ "steam" ++ "::" ++ "n" :=
  quote_cache_stores_on_miss (fun _ => none) none none "t"
    ⟨"n", "steam", none, 1⟩ rfl

/-! ### Claim C8: preferred source and single fallback -/

/-- Claim C8: on a cache miss, if the item's preferred source yields a
quote the alternate source is never contacted, and if it yields `None`
the alternate source is attempted exactly once; the preferred source
itself runs exactly once. -/
theorem fallback_exactly_once (cache : String → Option CachedQuote)
    (sq kq : Option ℚ) (now : String) (it : Item)
    (h : cache (price_cache_key it) = none) :
    (it.source = "skinport" →
      (fetch_price_for_item cache sq kq now it).skinport_calls = 1 ∧
      (kq ≠ none → (fetch_price_for_item cache sq kq now it).steam_calls = 0) ∧
      (kq = none → (fetch_price_for_item cache sq kq now it).steam_calls = 1)) ∧
    (it.source ≠ "skinport" →
      (fetch_price_for_item cache sq kq now it).steam_calls = 1 ∧
      (sq ≠ none → (fetch_price_for_item cache sq kq now it).skinport_calls = 0) ∧
      (sq = none → (fetch_price_for_item cache sq kq now it).skinport_calls = 1)) := by
  constructor
  · intro hs
    cases kq <;> simp [fetch_price_for_item, h, hs]
  · intro hs
    cases sq <;> simp [fetch_price_for_item, h, hs]

/-- Witness for `fallback_exactly_once`: a steam-preferring item whose
steam lookup fails, so skinport is tried exactly once. -/
theorem fallback_exactly_once_witness :
    (fetch_price_for_item (fun _ => none) none (some (mkRat 5 1)) "t"
        ⟨"n", "steam", none, 1⟩).steam_calls = 1 ∧
    (fetch_price_for_item (fun _ => none) none (some (mkRat 5 1)) "t"
        ⟨"n", "steam", none, 1⟩).skinport_calls = 1 := by
  have h := (fallback_exactly_once (fun _ => none) none (some (mkRat 5 1)) "t"
    ⟨"n", "steam", none, 1⟩ rfl).2 (by decide)
  exact ⟨h.1, h.2.2 rfl⟩


/-! ### Claim C5: financial metrics -/

/-- Claim C5: for every priced record, `profitPerItem` is
`round(currentPrice - paidPrice, 2)` when a current price is present and
`None` otherwise; `profitTotal` is `round(profitPerItem * quantity, 2)`
iff `profitPerItem` is present; `percentChange` is
`round(profitPerItem / paidPrice * 100, 2)` iff `profitPerItem` is
present and `paidPrice` is nonzero; hence a missing current price
nullifies all three and a zero paid price nullifies the percent
change. -/
theorem profit_metrics_spec (r : RawResult) :
    (∀ c : ℚ, r.current_price = some c →
      (get_prices_row r).profit_per_item =
        some (round2 (c - (get_prices_row r).paid_price))) ∧
    (r.current_price = none → (get_prices_row r).profit_per_item = none) ∧
    (∀ pp : ℚ, (get_prices_row r).profit_per_item = some pp →
      (get_prices_row r).profit_total =
        some (round2 (pp * ((get_prices_row r).quantity : ℚ)))) ∧
    ((get_prices_row r).profit_per_item = none →
      (get_prices_row r).profit_total = none) ∧
    (∀ pp : ℚ, (get_prices_row r).profit_per_item = some pp →
      (get_prices_row r).paid_price ≠ 0 →
      (get_prices_row r).percent_change =
        some (round2 (pp / (get_prices_row r).paid_price * 100))) ∧
    ((get_prices_row r).profit_per_item = none ∨
        (get_prices_row r).paid_price = 0 →
      (get_prices_row r).percent_change = none) ∧
    (r.current_price = none →
      (get_prices_row r).profit_per_item = none ∧
      (get_prices_row r).profit_total = none ∧
      (get_prices_row r).percent_change = none) := by
  rcases hc : r.current_price with _ | c
  · refine ⟨?_, ?_, ?_, ?_, ?_, ?_, ?_⟩ <;>
      simp [get_prices_row, hc]
  · have hpp : (get_prices_row r).profit_per_item =
        some (round2 (c - r.paid_price.getD 0)) := by
      simp [get_prices_row, hc, qSub_eq]
    have hpaid : (get_prices_row r).paid_price = r.paid_price.getD 0 := by
      simp [get_prices_row, hc]
    have hqty : (get_prices_row r).quantity =
        (if r.quantity = 0 then 1 else r.quantity) := by
      simp [get_prices_row, hc]
    have htot : (get_prices_row r).profit_total =
        some (round2 ((round2 (c - r.paid_price.getD 0)) *
          ((if r.quantity = 0 then 1 else r.quantity : ℕ) : ℚ))) := by
      simp [get_prices_row, hc, qSub_eq, qMulNat_eq]
    have hpct : (get_prices_row r).percent_change =
        (if r.paid_price.getD 0 = 0 then none
        else some (round2 ((round2 (c - r.paid_price.getD 0)) /
          (r.paid_price.getD 0) * 100))) := by
      by_cases h0 : r.paid_price.getD 0 = 0
      · simp [get_prices_row, hc, h0]
      · simp [get_prices_row, hc, h0, qSub_eq, qMul100_eq, qDiv_eq _ _ h0]
    refine ⟨?_, ?_, ?_, ?_, ?_, ?_, ?_⟩
    · intro c2 hc2
      obtain rfl : c = c2 := Option.some.inj hc2
      rw [hpp, hpaid]
    · intro h0
      exact Option.noConfusion h0
    · intro pp hpp2
      rw [hpp] at hpp2
      obtain rfl : round2 (c - r.paid_price.getD 0) = pp := Option.some.inj hpp2
      rw [htot, hqty]
    · intro h0
      rw [hpp] at h0
      exact Option.noConfusion h0
    · intro pp hpp2 hnz
      rw [hpp] at hpp2
      obtain rfl : round2 (c - r.paid_price.getD 0) = pp := Option.some.inj hpp2
      rw [hpaid] at hnz
      rw [hpct, if_neg hnz, hpaid]
    · intro hor
      rcases hor with h0 | h0
      · rw [hpp] at h0
        exact Option.noConfusion h0
      · rw [hpaid] at h0
        rw [hpct, if_pos h0]
    · intro h0
      exact Option.noConfusion h0

/-- Witness for `profit_metrics_spec` at a record with current price
12.5, paid price 10 and quantity 2. -/
theorem profit_metrics_spec_witness :
    (get_prices_row ⟨"n", "steam", some (mkRat 125 10), "t",
        some (mkRat 10 1), 2⟩).profit_per_item =
      some (round2 (mkRat 125 10 -
        (get_prices_row ⟨"n", "steam", some (mkRat 125 10), "t",
          some (mkRat 10 1), 2⟩).paid_price)) :=
  (profit_metrics_spec ⟨"n", "steam", some (mkRat 125 10), "t",
    some (mkRat 10 1), 2⟩).1 (mkRat 125 10) rfl


/-! ### Claim C10: batch order preservation -/

/-- The positional task list keeps one entry per item, in order. -/
lemma gatherMap_length (resolve : ℕ → Item → RawResult) (k : ℕ)
    (items : List Item) :
    (gatherMap resolve k items).length = items.length := by
  induction items generalizing k with
  | nil => rfl
  | cons hd tl ih => simp [gatherMap, ih]

/-- The i-th gathered result is the i-th task's result applied to the
i-th item. -/
lemma gatherMap_getElem (resolve : ℕ → Item → RawResult) (k i : ℕ)
    (items : List Item) :
    (gatherMap resolve k items)[i]? =
      (items[i]?).map (fun it => resolve (k + i) it) := by
  induction items generalizing k i with
  | nil => simp [gatherMap]
  | cons hd tl ih =>
    cases i with
    | zero => simp [gatherMap]
    | succ j =>
      have harith : k + 1 + j = k + (j + 1) := by omega
      simp [gatherMap, ih (k + 1) j, harith]

/-- Claim C10: for a non-empty item list the batch pipeline returns a
list of exactly the same length whose i-th record is the priced result
of the i-th input row — input order, nothing dropped or duplicated. -/
theorem get_prices_preserves_order (items : List Item)
    (resolve : ℕ → Item → RawResult) (h : items ≠ []) :
    (get_prices items resolve).length = items.length ∧
    ∀ i : ℕ, (get_prices items resolve)[i]? =
      (items[i]?).map (fun it => get_prices_row (resolve i it)) := by
  constructor
  · simp [get_prices, gatherMap_length]
  · intro i
    simp only [get_prices, List.getElem?_map, gatherMap_getElem, Nat.zero_add]
    cases items[i]? <;> simp

/-- Witness for `get_prices_preserves_order` on a one-element batch. -/
theorem get_prices_preserves_order_witness :
    (get_prices [⟨"n", "steam", none, 1⟩]
        (fun _ _ => ⟨"n", "steam", none, "t", none, 1⟩)).length = 1 ∧
    (get_prices [⟨"n", "steam", none, 1⟩]
        (fun _ _ => ⟨"n", "steam", none, "t", none, 1⟩))[0]? =
      some (get_prices_row ⟨"n", "steam", none, "t", none, 1⟩) := by
  have h := get_prices_preserves_order [⟨"n", "steam", none, 1⟩]
    (fun _ _ => ⟨"n", "steam", none, "t", none, 1⟩) (by simp)
  exact ⟨h.1, h.2 0⟩

/-! ### Claim C9: sheet-row admission -/

/-- The quantity parser never returns less than 1. -/
lemma one_le_parse_quantity (s : String) : 1 ≤ parse_quantity s := by
  unfold parse_quantity
  cases pyFloat s with
  | none => exact le_refl 1
  | some q =>
    show 1 ≤ (max 1 (ratTrunc q)).toNat
    rcases le_or_lt (ratTrunc q) 1 with h | h
    · rw [max_eq_left h]
      decide
    · rw [max_eq_right (le_of_lt h)]
      omega

/-- Counterexample to claim C9: the row
`{item_name "X", source "Buff163", paid_price "abc", quantity "0"}` is
kept with source `"buff163"` — the unrecognized source is lower-cased
and retained, not defaulted to `"steam"` — and with `paid_price = None`,
not 0, because the present string `"abc"` fails to parse. -/
theorem sheet_row_unrecognized_source_kept :
    read_items_row ⟨some "X", some "Buff163", some "abc", some "0"⟩ =
      some ⟨"X", "buff163", none, 1⟩ ∧
    ("buff163" : String) ≠ "steam" ∧
    (none : Option ℚ) ≠ some 0 := by
  refine ⟨by decide, by decide, by decide⟩

/-- Claim C9 (amended): a row lacking `item_name` (absent or empty) is
dropped and any row with a non-empty name is kept; `source` is read
case-insensitively (stripped and lower-cased) and defaults to `"steam"`
exactly when absent or empty — an unrecognized non-empty value is kept;
`paid_price` is 0 when the field is absent or empty and `None` when a
present string fails to parse; `quantity` defaults to 1 and is floored
at 1 — each malformed field degrades individually. -/
theorem sheet_row_parse_spec :
    (∀ r : SheetRow, r.item_name = none ∨ r.item_name = some "" →
      read_items_row r = none) ∧
    (∀ (r : SheetRow) (nm : String), r.item_name = some nm → nm ≠ "" →
      ∃ it : Item, read_items_row r = some it ∧ it.item_name = nm) ∧
    (∀ (r : SheetRow) (it : Item), read_items_row r = some it →
      (r.source = none ∨ r.source = some "" → it.source = "steam") ∧
      (∀ s : String, r.source = some s → s ≠ "" →
        it.source = String.mk ((trimChars s.data).map lowerChar)) ∧
      (r.paid_price = none ∨ r.paid_price = some "" →
        it.paid_price = some 0) ∧
      (∀ s : String, r.paid_price = some s → s ≠ "" →
        parse_float_safe s = none → it.paid_price = none) ∧
      (r.quantity = none → it.quantity = 1) ∧
      1 ≤ it.quantity) := by
  refine ⟨?_, ?_, ?_⟩
  · intro r hr
    rcases hr with h | h <;> simp [read_items_row, h]
  · intro r nm hn hnm
    refine ⟨⟨nm, String.mk ((trimChars (orDefault r.source "steam").data).map lowerChar),
      parse_float_safe (orDefault r.paid_price "0"),
      parse_quantity (orDefault r.quantity "1")⟩, ?_, rfl⟩
    simp [read_items_row, hn, hnm]
  · intro r it hit
    rcases hn : r.item_name with _ | nm
    · simp [read_items_row, hn] at hit
    · by_cases hnm : nm = ""
      · simp [read_items_row, hn, hnm] at hit
      · simp [read_items_row, hn, hnm] at hit
        subst hit
        refine ⟨?_, ?_, ?_, ?_, ?_, ?_⟩
        · intro hs
          rcases hs with h | h <;> rw [h] <;> simp only [orDefault] <;> decide
        · intro s hs hse
          rw [hs]
          simp [orDefault, hse]
        · intro hp
          rcases hp with h | h <;> rw [h] <;> simp only [orDefault] <;> decide
        · intro s hs hse hfail
          rw [hs]
          simp [orDefault, hse, hfail]
        · intro hq
          rw [hq]
          simp only [orDefault]
          decide
        · exact one_le_parse_quantity _

/-- Witness for `sheet_row_parse_spec`: a name-less row is dropped, and
a kept minimal row defaults source and floors quantity. -/
theorem sheet_row_parse_spec_witness :
    read_items_row ⟨none, none, none, none⟩ = none ∧
    ((⟨"X", "steam", some 0, 1⟩ : Item).source = "steam" ∧
      1 ≤ (⟨"X", "steam", some 0, 1⟩ : Item).quantity) := by
  constructor
  · exact sheet_row_parse_spec.1 ⟨none, none, none, none⟩ (Or.inl rfl)
  · have h := sheet_row_parse_spec.2.2 ⟨some "X", none, none, none⟩
      ⟨"X", "steam", some 0, 1⟩ (by decide)
    exact ⟨h.1 (Or.inl rfl), h.2.2.2.2.2⟩


/-! ### Claim C1: single-flight of the catalog fetch -/

/-- Running `n` first-phase entries against an empty cache issues one
upstream fetch per entry: each caller reads the cache before any fetch
completes, misses, and starts its own request. -/
lemma runCat_all_start {α : Type} (resp : List α) :
    ∀ (n : ℕ) (s : CatSt α), s.cache = none → n ≤ s.idle →
    (runCat resp s (List.replicate n CatEv.start)).fetches = s.fetches + n ∧
    (runCat resp s (List.replicate n CatEv.start)).cache = none := by
  intro n
  induction n with
  | zero =>
    intro s hc _
    exact ⟨rfl, hc⟩
  | succ m ih =>
    intro s hc hn
    have hidle : ¬ s.idle = 0 := by omega
    have hstep : catStep resp s CatEv.start =
        { s with idle := s.idle - 1, inflight := s.inflight + 1,
                 fetches := s.fetches + 1 } := by
      simp [catStep, hidle, hc]
    have hrw : runCat resp s (List.replicate (m + 1) CatEv.start) =
        runCat resp (catStep resp s CatEv.start)
          (List.replicate m CatEv.start) := by
      simp [runCat, List.replicate_succ]
    rw [hrw, hstep]
    obtain ⟨h1, h2⟩ := ih
      { s with idle := s.idle - 1, inflight := s.inflight + 1,
               fetches := s.fetches + 1 } hc (by show m ≤ s.idle - 1; omega)
    refine ⟨?_, h2⟩
    rw [h1]
    show s.fetches + 1 + m = s.fetches + (m + 1)
    omega

/-- Counterexample to claim C1: two concurrent resolutions against the
empty catalog cache under the natural schedule — both callers check the
cache while the first fetch is still in flight — issue 2 upstream
fetches, not the exactly 1 the claim requires. -/
theorem catalog_two_misses_two_fetches :
    (runCat ([5] : List ℕ) (initCat ℕ 2)
      [CatEv.start, CatEv.start, CatEv.complete, CatEv.complete]).fetches = 2 ∧
    ¬ (runCat ([5] : List ℕ) (initCat ℕ 2)
      [CatEv.start, CatEv.start, CatEv.complete, CatEv.complete]).fetches = 1 := by
  refine ⟨by decide, by decide⟩

/-- Claim C1 (amended): the catalog fetch is not single-flight.  There
is no lock: every concurrent caller that misses the cache before a fetch
completes issues its own upstream call, so N concurrent resolutions that
all miss the empty catalog cause N upstream fetches under the schedule
in which each checks the cache before any fetch returns; a caller that
finds a cached snapshot issues no fetch and returns that snapshot. -/
theorem catalog_fetch_not_single_flight :
    (∀ (α : Type) (resp : List α) (n : ℕ),
      (runCat resp (initCat α n) (List.replicate n CatEv.start)).fetches = n) ∧
    (∀ (α : Type) (resp : List α) (s : CatSt α) (c : List α),
      s.cache = some c → 0 < s.idle →
      (catStep resp s CatEv.start).fetches = s.fetches ∧
      (catStep resp s CatEv.start).returns = c :: s.returns) := by
  constructor
  · intro α resp n
    have h := (runCat_all_start resp n (initCat α n) rfl (le_refl _)).1
    rw [h]
    show 0 + n = n
    omega
  · intro α resp s c hc hidle
    have h0 : ¬ s.idle = 0 := by omega
    constructor <;> simp [catStep, h0, hc]

/-- Witness for `catalog_fetch_not_single_flight`: three concurrent
misses give three fetches, and a caller hitting a populated cache adds
none. -/
theorem catalog_fetch_not_single_flight_witness :
    (runCat ([5] : List ℕ) (initCat ℕ 3)
      (List.replicate 3 CatEv.start)).fetches = 3 ∧
    (catStep ([5] : List ℕ)
      (⟨some [9], 4, 1, 0, []⟩ : CatSt ℕ) CatEv.start).fetches = 4 := by
  refine ⟨catalog_fetch_not_single_flight.1 ℕ [5] 3,
    (catalog_fetch_not_single_flight.2 ℕ [5] ⟨some [9], 4, 1, 0, []⟩ [9]
      rfl (by decide)).1⟩

/-! ### Claim C4: catalog fetch failure handling and retries -/

/-- The retry loop performs at most as many attempts as it has fuel. -/
lemma catLoop_attempts_le {α : Type} (f : ℕ → Outcome α) :
    ∀ (n i : ℕ), (catLoop f n i).attempts ≤ n := by
  intro n
  induction n with
  | zero => intro i; simp [catLoop]
  | succ m ih =>
    intro i
    rcases hf : f i with l | _ | c | _
    · simp [catLoop, hf]
    · simp [catLoop, hf]
    · cases hb : ((500 : ℕ) ≤ c && c < 600)
      · simp [catLoop, hf, hb]
      · simp only [catLoop, hf, hb, if_true]
        have := ih (i + 1)
        omega
    · simp only [catLoop, hf]
      have := ih (i + 1)
      omega

/-- The backoff multipliers slept by the loop are the consecutive
attempt numbers starting at `i + 1`. -/
lemma catLoop_backoffs {α : Type} (f : ℕ → Outcome α) :
    ∀ (n i : ℕ), (catLoop f n i).backoffs =
      List.range' (i + 1) (catLoop f n i).backoffs.length := by
  intro n
  induction n with
  | zero => intro i; simp [catLoop]
  | succ m ih =>
    intro i
    rcases hf : f i with l | _ | c | _
    · simp [catLoop, hf]
    · simp [catLoop, hf]
    · cases hb : ((500 : ℕ) ≤ c && c < 600)
      · simp [catLoop, hf, hb]
      · simp only [catLoop, hf, hb, if_true]
        show (i + 1) :: (catLoop f m (i + 1)).backoffs =
          List.range' (i + 1)
            ((i + 1) :: (catLoop f m (i + 1)).backoffs).length
        rw [List.length_cons, List.range'_succ]
        rw [← ih (i + 1)]
    · simp only [catLoop]
      rw [hf]
      show (i + 1) :: (catLoop f m (i + 1)).backoffs =
        List.range' (i + 1)
          ((i + 1) :: (catLoop f m (i + 1)).backoffs).length
      rw [List.length_cons, List.range'_succ]
      rw [← ih (i + 1)]

/-- Every attempt that was followed by another one had a retriable
outcome (a 5xx status or an exception). -/
lemma catLoop_retried {α : Type} (f : ℕ → Outcome α) :
    ∀ (n i k : ℕ), k + 1 < (catLoop f n i).attempts →
      retriable (f (i + k)) = true := by
  intro n
  induction n with
  | zero =>
    intro i k hk
    simp [catLoop] at hk
  | succ m ih =>
    intro i k hk
    rcases hf : f i with l | _ | c | _
    · simp [catLoop, hf] at hk
    · simp [catLoop, hf] at hk
    · cases hb : ((500 : ℕ) ≤ c && c < 600)
      · simp [catLoop, hf, hb] at hk
      · simp only [catLoop, hf, hb, if_true] at hk
        cases k with
        | zero =>
          simp only [Nat.add_zero]
          rw [hf]
          simpa [retriable] using hb
        | succ j =>
          have harith : i + (j + 1) = (i + 1) + j := by omega
          rw [harith]
          exact ih (i + 1) j (by omega)
    · cases k with
      | zero =>
        simp only [Nat.add_zero]
        rw [hf]
        rfl
      | succ j =>
        simp only [catLoop, hf] at hk
        have harith : i + (j + 1) = (i + 1) + j := by omega
        rw [harith]
        exact ih (i + 1) j (by omega)

/-- The loop either fails through — empty result, cache untouched — or
returns the payload of some successful attempt, which it caches. -/
lemma catLoop_result {α : Type} (f : ℕ → Outcome α) :
    ∀ (n i : ℕ),
      ((catLoop f n i).result = [] ∧ (catLoop f n i).cached = none) ∨
      ∃ k, k < n ∧ f (i + k) = Outcome.ok ((catLoop f n i).result) ∧
        (catLoop f n i).cached = some ((catLoop f n i).result) := by
  intro n
  induction n with
  | zero => intro i; exact Or.inl ⟨rfl, rfl⟩
  | succ m ih =>
    intro i
    rcases hf : f i with l | _ | c | _
    · refine Or.inr ⟨0, by omega, ?_, ?_⟩ <;> simp [catLoop, hf]
    · exact Or.inl (by simp [catLoop, hf])
    · cases hb : ((500 : ℕ) ≤ c && c < 600)
      · exact Or.inl (by simp [catLoop, hf, hb])
      · rcases ih (i + 1) with ⟨h1, h2⟩ | ⟨k, hk, h1, h2⟩
        · exact Or.inl (by simp only [catLoop, hf, hb, if_true]; exact ⟨h1, h2⟩)
        · refine Or.inr ⟨k + 1, by omega, ?_, ?_⟩ <;>
            simp only [catLoop, hf, hb, if_true]
          · have harith : i + (k + 1) = (i + 1) + k := by omega
            rw [harith]
            exact h1
          · exact h2
    · rcases ih (i + 1) with ⟨h1, h2⟩ | ⟨k, hk, h1, h2⟩
      · refine Or.inl ?_
        simp only [catLoop]
        rw [hf]
        exact ⟨h1, h2⟩
      · refine Or.inr ⟨k + 1, by omega, ?_, ?_⟩ <;> simp only [catLoop] <;> rw [hf]
        · have harith : i + (k + 1) = (i + 1) + k := by omega
          rw [harith]
          exact h1
        · exact h2

/-- A first attempt that neither succeeds nor is retriable ends the
call: one attempt, empty result, no sleep, cache untouched. -/
lemma catLoop_first_nonretriable {α : Type} (f : ℕ → Outcome α)
    (h1 : retriable (f 0) = false) (h2 : ∀ l, f 0 ≠ Outcome.ok l) :
    catLoop f 3 0 = ⟨[], none, 1, []⟩ := by
  rcases hf : f 0 with l | _ | c | _
  · exact absurd hf (h2 l)
  · simp [catLoop, hf]
  · rw [hf] at h1
    simp only [retriable] at h1
    simp [catLoop, hf, h1]
  · rw [hf] at h1
    simp [retriable] at h1

/-- Counterexample to claim C4: from an empty cache, when the first
attempt raises (a transport exception — not a server-side 5xx status)
and the second succeeds, the code retries and returns the second
attempt's payload after 2 attempts.  Under the claim — only 5xx
failures are retried, non-retriable failures end the attempt — no
second attempt would exist. -/
theorem catalog_retry_after_exception :
    fetch_skinport_catalog (none : Option (List ℕ))
        (fun k => if k = 0 then Outcome.exc else Outcome.ok [7]) =
      ⟨[7], some [7], 2, [1]⟩ ∧
    ¬ (∀ g : ℕ → Outcome ℕ,
        1 < (fetch_skinport_catalog (none : Option (List ℕ)) g).attempts →
        ∃ c, g 0 = Outcome.httpStatus c ∧ 500 ≤ c ∧ c < 600) := by
  constructor
  · decide
  · intro h
    obtain ⟨c, hc, _⟩ := h (fun k => if k = 0 then Outcome.exc else Outcome.ok [7])
      (by decide)
    simp at hc

/-- Claim C4 (amended): `getCatalog` never raises: with a cached
snapshot it returns it with no upstream attempt; otherwise it attempts
the fetch at most 3 times, sleeping a base delay times the attempt
number (1, 2, ...) before each retry; an attempt is retried only when
its outcome is retriable — a 5xx status or a raised exception; a first
outcome that neither succeeds nor is retriable ends the call after one
attempt leaving the cache in its previous state; and from an empty
cache the call either returns an empty list leaving the cache empty, or
returns the payload of a successful attempt, which it caches. -/
theorem catalog_fetch_retry_spec (α : Type) (cached : Option (List α))
    (f : ℕ → Outcome α) :
    (∀ c, cached = some c →
      fetch_skinport_catalog cached f = ⟨c, some c, 0, []⟩) ∧
    (fetch_skinport_catalog cached f).attempts ≤ 3 ∧
    (fetch_skinport_catalog cached f).backoffs =
      List.range' 1 (fetch_skinport_catalog cached f).backoffs.length ∧
    (∀ k, k + 1 < (fetch_skinport_catalog cached f).attempts →
      retriable (f k) = true) ∧
    (cached = none → retriable (f 0) = false → (∀ l, f 0 ≠ Outcome.ok l) →
      fetch_skinport_catalog cached f = ⟨[], none, 1, []⟩) ∧
    (cached = none →
      ((fetch_skinport_catalog cached f).result = [] ∧
        (fetch_skinport_catalog cached f).cached = none) ∨
      ∃ k, k < 3 ∧
        f k = Outcome.ok ((fetch_skinport_catalog cached f).result) ∧
        (fetch_skinport_catalog cached f).cached =
          some ((fetch_skinport_catalog cached f).result)) := by
  rcases hc : cached with _ | c0
  · refine ⟨?_, ?_, ?_, ?_, ?_, ?_⟩
    · intro c h
      exact Option.noConfusion h
    · exact catLoop_attempts_le f 3 0
    · exact catLoop_backoffs f 3 0
    · intro k hk
      have h := catLoop_retried f 3 0 k hk
      simpa using h
    · intro _ h1 h2
      exact catLoop_first_nonretriable f h1 h2
    · intro _
      have h := catLoop_result f 3 0
      simpa using h
  · refine ⟨?_, ?_, ?_, ?_, ?_, ?_⟩
    · intro c h
      obtain rfl := Option.some.inj h
      rfl
    · show (0 : ℕ) ≤ 3
      omega
    · rfl
    · intro k hk
      simp [fetch_skinport_catalog] at hk
    · intro h
      exact Option.noConfusion h
    · intro h
      exact Option.noConfusion h

/-- Witness for `catalog_fetch_retry_spec`: a cached snapshot is
returned without attempts, and a 404 first outcome ends an uncached call
at one attempt with an empty result. -/
theorem catalog_fetch_retry_spec_witness :
    fetch_skinport_catalog (some [3]) (fun _ => (Outcome.exc : Outcome ℕ)) =
      ⟨[3], some [3], 0, []⟩ ∧
    fetch_skinport_catalog (none : Option (List ℕ))
        (fun _ => Outcome.httpStatus 404) = ⟨[], none, 1, []⟩ := by
  refine ⟨(catalog_fetch_retry_spec ℕ (some [3])
      (fun _ => Outcome.exc)).1 [3] rfl,
    (catalog_fetch_retry_spec ℕ none
      (fun _ => Outcome.httpStatus 404)).2.2.2.2.1 rfl (by decide) ?_⟩
  intro l h
  exact Outcome.noConfusion h

end CS2
